import Mathlib

/-!
Shallow embedding of the spring-sim repository (`src/main.ts`).

The source file contains three near-duplicate program variants separated by
document markers.  Variant 1 (the first block, with `stationaryPoints`,
`forceDampen = 12`, friction `0.98`, `updateNumCircles`) is the primary
program; the third block's `getForceBelow`/`getForceAbove` force layout is
embedded in namespace `V3` where a claim refers to it.

Numbers are embedded as rationals `ℚ`: every arithmetic operation that the
claims exercise (+, -, *, /, comparisons) coincides with the JS `number`
semantics on the rational inputs involved.  JS array accesses `a[j]` that can
be out of range are modelled with `Option` (`none` mirrors the `undefined`
access on which the JS code would throw); accesses that are guarded in the
source use `List.getD` at provably in-range indices.
-/

namespace SpringSim

/-- The 2D vector type mirroring simulationjs's `Vector` as used by `main.ts`
(`x`/`y` components; `clone`/`sub`/`multiply`/`divide`/`appendY`/`move` are
embedded pointwise at the use sites, with value semantics). -/
structure Vec where
  x : ℚ
  y : ℚ
deriving DecidableEq

instance : Inhabited Vec := ⟨⟨0, 0⟩⟩

/-- Class `PhysicsCircle` from `main.ts`: a mass point with position, velocity and
mass.  The rendering-only `radius` field is not modelled. -/
structure PhysicsCircle where
  pos : Vec
  velocity : Vec
  mass : ℚ
deriving DecidableEq

instance : Inhabited PhysicsCircle := ⟨⟨⟨0, 0⟩, ⟨0, 0⟩, 0⟩⟩

/-- Constant `fps = 60` (variant 1, line 16). -/
def fps : ℚ := 60

/-- Constant `forceDampen = 12` (variant 1, line 17; same value in variant 3). -/
def forceDampen : ℚ := 12

/-- Constant `circleGap = 120` (variant 1, line 18). -/
def circleGap : ℚ := 120

/-- Constant `circleMass = 0.5` (variant 1, line 20). -/
def circleMass : ℚ := 1/2

/-- Constant `g = 9.8` (variant 1, line 21). -/
def g : ℚ := 49/5

/-- Constant `friction = 0.98`, the local constant inside variant 1's
`accelerateCircles`. -/
def friction : ℚ := 49/50

/-- The initial value of the mutable `numCircles` global (variant 1,
line 26): `let numCircles = 10`. -/
def defaultNumCircles : Nat := 10

/-- The mutable global state of variant 1 of `main.ts`:
`circles`, `springLength`, `springConstant`, `currentDragging`,
`stationaryPoints`, `numCircles`, `dragging`, `mousePos`, `pressingShift`
and the frame-time accumulator `prev`. -/
structure SimState where
  circles : List PhysicsCircle
  springLength : ℚ
  springConstant : ℚ
  currentDragging : Nat
  stationaryPoints : Finset ℕ
  numCircles : Nat
  dragging : Bool
  mousePos : Vec
  pressingShift : Bool
  prev : ℚ
deriving DecidableEq

instance : Inhabited SimState :=
  ⟨⟨[], 80, 4, 0, {0}, defaultNumCircles, false, ⟨0, 0⟩, false, 0⟩⟩

/-- Function `springForceCircles(c1, c2)` (variant 1, lines 152-156):
`diff = c1.pos - c2.pos`, force `(k * diff.x, k * (diff.y - springLength))`.
The mutable globals `springConstant`/`springLength` are passed explicitly. -/
def springForceCircles (sc sl : ℚ) (c1 c2 : PhysicsCircle) : Vec :=
  let diff : Vec := ⟨c1.pos.x - c2.pos.x, c1.pos.y - c2.pos.y⟩
  ⟨sc * diff.x, sc * (diff.y - sl)⟩

/-- Function `clamp`: `Math.max(Math.min(val, max), min)`
(variant 1, lines 158-160). -/
def clamp (val lo hi : ℚ) : ℚ := max (min val hi) lo

/-- Squared Euclidean distance.  The source compares
`distance(a, p) < distance(b, p)` (Euclidean); since `Real.sqrt` is strictly
monotone on nonnegative inputs, comparing squared distances yields the very
same branch outcome, so the embedding uses the squared form to stay in `ℚ`. -/
def dist2 (a b : Vec) : ℚ := (a.x - b.x) ^ 2 + (a.y - b.y) ^ 2

/-- Function `getClosestPointIndex(p)` (variant 1, lines 142-150): linear scan keeping
the first index realizing the minimum distance to `p`. -/
def getClosestPointIndex (cs : List PhysicsCircle) (p : Vec) : Nat :=
  (List.range cs.length).foldl
    (fun res i =>
      if dist2 (cs.getD i default).pos p < dist2 (cs.getD res default).pos p then i else res)
    0

/-- JS array access `circles[j]` for a possibly out-of-range signed index:
`some` of the element when `0 ≤ j < length`, otherwise `none` (the JS access
yields `undefined` and any use of it throws). -/
def nodeAt (cs : List PhysicsCircle) (j : ℤ) : Option PhysicsCircle :=
  if 0 ≤ j ∧ j.toNat < cs.length then some (cs.getD j.toNat default) else none

/-- The "force below" term of variant 1's `accelerateCircles` (lines 169-170):
`i < circles.length - 1 ? springForceCircles(circles[i+1], circles[i]) : (0,0)`. -/
def forceBelowAt (sc sl : ℚ) (cs : List PhysicsCircle) (i : Nat) : Vec :=
  if i < cs.length - 1 then springForceCircles sc sl (cs.getD (i+1) default) (cs.getD i default)
  else ⟨0, 0⟩

/-- The "force above" term of variant 1's `accelerateCircles` (line 171):
`springForceCircles(circles[i], circles[i-1])`, meaningful for `i ≥ 1`. -/
def forceAboveAt (sc sl : ℚ) (cs : List PhysicsCircle) (i : Nat) : Vec :=
  springForceCircles sc sl (cs.getD i default) (cs.getD (i-1) default)

/-- The per-node net force of variant 1's `accelerateCircles` (lines 168-175):
`force = forceBelow - forceAbove`, then `force.divide(forceDampen)` (both
components), then `force.appendY(weight)` with `weight = mass * g`.
`none` models the throwing access `circles[i-1]` when `i = 0` is not skipped. -/
def netForce (sc sl : ℚ) (cs : List PhysicsCircle) (i : Nat) : Option Vec :=
  match nodeAt cs ((i : ℤ) - 1) with
  | none => none
  | some above =>
    let c := cs.getD i default
    let weight := c.mass * g
    let below : Vec :=
      if i < cs.length - 1 then springForceCircles sc sl (cs.getD (i+1) default) c else ⟨0, 0⟩
    let fa : Vec := springForceCircles sc sl c above
    let f : Vec := ⟨below.x - fa.x, below.y - fa.y⟩
    let fd : Vec := ⟨f.x / forceDampen, f.y / forceDampen⟩
    some ⟨fd.x, fd.y + weight⟩

/-- One loop iteration of variant 1's `accelerateCircles` (lines 166-184) for
index `i`: skip when `i ∈ stationaryPoints || i == currentDragging`,
otherwise `acc = force / mass / fps` and
`v := (v + acc * dx) * friction` componentwise. -/
def updateVelocity (stat : Finset ℕ) (cd : Nat) (sc sl dx : ℚ)
    (cs : List PhysicsCircle) (i : Nat) : Option PhysicsCircle :=
  let c := cs.getD i default
  if i ∈ stat ∨ i = cd then some c
  else
    match netForce sc sl cs i with
    | none => none
    | some f =>
      let accY := f.y / c.mass / fps
      let accX := f.x / c.mass / fps
      some { c with velocity :=
        ⟨(c.velocity.x + accX * dx) * friction, (c.velocity.y + accY * dx) * friction⟩ }

/-- Runs `f` on the indices `i, i+1, ..., i+n-1` collecting the results, and
fails as soon as one call fails — the shape of the `for` loop in
`accelerateCircles`. -/
def buildFrom (f : Nat → Option PhysicsCircle) : Nat → Nat → Option (List PhysicsCircle)
  | _, 0 => some []
  | i, n+1 =>
    match f i, buildFrom f (i+1) n with
    | some c, some l => some (c :: l)
    | _, _ => none

/-- Function `accelerateCircles(circles)` (variant 1, lines 162-185) together with its
reading of `Date.now()`: `dx = clamp(now - prev, 0, 17)`, `prev = now`, then
the per-index velocity loop.  Since the loop writes only `velocity` fields and
reads only `pos` and `mass` fields, the in-place JS mutation is equivalent to
this snapshot map over the start-of-call list. -/
def accelerateCircles (s : SimState) (now : ℚ) : Option SimState :=
  let dx := clamp (now - s.prev) 0 17
  match buildFrom
      (updateVelocity s.stationaryPoints s.currentDragging s.springConstant s.springLength dx
        s.circles)
      0 s.circles.length with
  | none => none
  | some cs => some { s with prev := now, circles := cs }

/-- The movement phase of the frame callback (variant 1, lines 128-130):
`circle.move(circle.velocity)` for every circle. -/
def moveCircles (cs : List PhysicsCircle) : List PhysicsCircle :=
  cs.map fun c => { c with pos := ⟨c.pos.x + c.velocity.x, c.pos.y + c.velocity.y⟩ }

/-- One frame tick (variant 1, lines 126-133, without the drawing calls):
`accelerateCircles(circles)` then move every circle by its velocity. -/
def frameTick (s : SimState) (now : ℚ) : Option SimState :=
  match accelerateCircles s now with
  | none => none
  | some s1 => some { s1 with circles := moveCircles s1.circles }

/-- Assignment `circles[i].velocity = v` at a guarded index: list update at `i`.  The
source always performs this at an in-range index when the chain is nonempty
(the chain invariant `length ≥ 1`); `List.set` is a no-op out of range where
the JS code would throw on `undefined`. -/
def setVelAt (cs : List PhysicsCircle) (i : Nat) (v : Vec) : List PhysicsCircle :=
  cs.set i { cs.getD i default with velocity := v }

/-- Call `circles[i].move(d)`: translate circle `i`'s position by `d`. -/
def moveAt (cs : List PhysicsCircle) (i : Nat) (d : Vec) : List PhysicsCircle :=
  let c := cs.getD i default
  cs.set i { c with pos := ⟨c.pos.x + d.x, c.pos.y + d.y⟩ }

/-- The `mousedown` handler (variant 1, lines 78-94), with `p` the already
ratio-corrected pointer position `(offsetX * ratio, offsetY * ratio)`:
`currentDragging = getClosestPointIndex(p)`; with Shift held, index 0 returns
untouched, a pinned index is unpinned and `currentDragging` reset to 0, an
unpinned index gets its velocity zeroed and is pinned; without Shift,
`dragging = true` and the picked circle's velocity is zeroed. -/
def mousedown (s : SimState) (p : Vec) : SimState :=
  let cd := getClosestPointIndex s.circles p
  if s.pressingShift then
    if cd = 0 then { s with currentDragging := cd }
    else if cd ∈ s.stationaryPoints then
      { s with currentDragging := 0, stationaryPoints := s.stationaryPoints.erase cd }
    else
      { s with currentDragging := cd,
               stationaryPoints := insert cd s.stationaryPoints,
               circles := setVelAt s.circles cd ⟨0, 0⟩ }
  else
    { s with currentDragging := cd, dragging := true,
             circles := setVelAt s.circles cd ⟨0, 0⟩ }

/-- The `mouseup` handler (variant 1, lines 96-104): while dragging,
`diff = p - mousePos`, `circles[currentDragging].velocity = diff.multiply(2)`,
`currentDragging = 0`, `dragging = false`; otherwise nothing.  `mousePos` is
not updated here. -/
def mouseup (s : SimState) (p : Vec) : SimState :=
  if s.dragging then
    let diff : Vec := ⟨p.x - s.mousePos.x, p.y - s.mousePos.y⟩
    { s with dragging := false,
             circles := setVelAt s.circles s.currentDragging ⟨2 * diff.x, 2 * diff.y⟩,
             currentDragging := 0 }
  else s

/-- The `mousemove` handler (variant 1, lines 107-114): while dragging, move
`circles[currentDragging]` by `p - mousePos`; in every case record
`mousePos = p`. -/
def mousemove (s : SimState) (p : Vec) : SimState :=
  let s1 :=
    if s.dragging then
      { s with circles :=
          moveAt s.circles s.currentDragging ⟨p.x - s.mousePos.x, p.y - s.mousePos.y⟩ }
    else s
  { s1 with mousePos := p }

/-- Function `generatePoints(pos, num)` (variant 1, lines 195-201): `num` circles of
mass `circleMass` stacked at `(pos.x, i * circleGap + pos.y)`, velocities zero
(the `PhysicsCircle` field initializer). -/
def generatePoints (pos : Vec) (num : Nat) : List PhysicsCircle :=
  (List.range num).map fun (i : ℕ) =>
    { pos := ⟨pos.x, (i : ℚ) * circleGap + pos.y⟩, velocity := ⟨0, 0⟩, mass := circleMass }

/-- Function `resetCircles` (variant 1, lines 35-39): `stationaryPoints = {0}` and
`circles = generatePoints(Vector(800, 250), numCircles)` with the *current*
`numCircles`; `currentDragging` and `dragging` are not touched
(`canvas.empty()` is rendering only). -/
def resetCircles (s : SimState) : SimState :=
  { s with stationaryPoints := {0},
           circles := generatePoints ⟨800, 250⟩ s.numCircles }

/-- The growing `while` loop of `updateNumCircles` (variant 1, lines 42-46):
each iteration pushes a `PhysicsCircle(circleMass, last.pos.clone(), radius)`
cloned from the current last circle's position.  On an empty chain the JS
access `circles[circles.length - 1]` would throw; the chain invariant
`length ≥ 1` rules that out and the theorems below assume a nonempty chain. -/
def growCircles (cs : List PhysicsCircle) : Nat → List PhysicsCircle
  | 0 => cs
  | k+1 =>
    growCircles
      (cs ++ [{ pos := (cs.getD (cs.length - 1) default).pos, velocity := ⟨0, 0⟩,
                mass := circleMass }])
      k

/-- Function `updateNumCircles(val)` (variant 1, lines 40-51) at a numeric `val = num`:
grow by pushing position-clones of the running last circle while
`num > numCircles` (ending with `numCircles = num`), else truncate with
`splice(num)` when `num < numCircles`. -/
def updateNumCircles (s : SimState) (num : Nat) : SimState :=
  if s.numCircles < num then
    { s with circles := growCircles s.circles (num - s.numCircles), numCircles := num }
  else if num < s.numCircles then
    { s with numCircles := num, circles := s.circles.take num }
  else s

namespace V3

/-- Function `getForceBelow(index)` of the third variant (lines 457-463):
`weight = mass * g`, and for a non-terminal node the spring force from below
with `.appendY(weight)` applied, else `(0, weight)`.  The mutable gravity `gv`
of that variant is passed explicitly. -/
def getForceBelow (sc sl gv : ℚ) (cs : List PhysicsCircle) (i : Nat) : Vec :=
  let weight := (cs.getD i default).mass * gv
  if i < cs.length - 1 then
    let f := springForceCircles sc sl (cs.getD (i+1) default) (cs.getD i default)
    ⟨f.x, f.y + weight⟩
  else ⟨0, weight⟩

/-- Function `getForceAbove(index)` of the third variant (lines 471-473):
`springForceCircles(circles[index], circles[index - 1])`; `none` models the
throwing access at `index = 0`. -/
def getForceAbove (sc sl : ℚ) (cs : List PhysicsCircle) (i : Nat) : Option Vec :=
  (nodeAt cs ((i : ℤ) - 1)).map fun above =>
    springForceCircles sc sl (cs.getD i default) above

/-- The per-node net force of the third variant's `accelerateCircles`
(lines 485-489): `force = getForceBelow(i) - getForceAbove(i)` followed by
`force.divide(forceDampen)` — the weight already sits inside the "below"
term, so it is divided along with the spring terms. -/
def netForce (sc sl gv : ℚ) (cs : List PhysicsCircle) (i : Nat) : Option Vec :=
  match getForceAbove sc sl cs i with
  | none => none
  | some fa =>
    let below := getForceBelow sc sl gv cs i
    let f : Vec := ⟨below.x - fa.x, below.y - fa.y⟩
    some ⟨f.x / forceDampen, f.y / forceDampen⟩

end V3

/-- The net-force formula exactly as claim C2 words it: `F = Fbelow - Fabove`
with the pure spring terms, then the gravity weight `mass * g` added once to
the y-component, then the result *including the weight term* divided by the
force-dampening constant.  Stated from the claim's words, to be compared with
the code's `netForce`. -/
def claimNetForce (sc sl : ℚ) (cs : List PhysicsCircle) (i : Nat) : Option Vec :=
  match nodeAt cs ((i : ℤ) - 1) with
  | none => none
  | some above =>
    let c := cs.getD i default
    let weight := c.mass * g
    let below : Vec :=
      if i < cs.length - 1 then springForceCircles sc sl (cs.getD (i+1) default) c else ⟨0, 0⟩
    let fa : Vec := springForceCircles sc sl c above
    some ⟨(below.x - fa.x) / forceDampen, (below.y - fa.y + weight) / forceDampen⟩

/-- The invariant of claim C10: outside an active drag, `currentDragging` is
index 0 or a pinned index. -/
def DragIdx (s : SimState) : Prop :=
  s.dragging = false → s.currentDragging = 0 ∨ s.currentDragging ∈ s.stationaryPoints

instance (s : SimState) : Decidable (DragIdx s) := by
  unfold DragIdx; infer_instance

/-- A state with the default parameter values of variant 1 (`springLength 80`,
`springConstant 4`, `stationaryPoints {0}`, not dragging) over a given chain,
used to build the concrete inputs of the witnesses and counterexamples. -/
def baseState (cs : List PhysicsCircle) : SimState :=
  { circles := cs, springLength := 80, springConstant := 4, currentDragging := 0,
    stationaryPoints := {0}, numCircles := cs.length, dragging := false,
    mousePos := ⟨0, 0⟩, pressingShift := false, prev := 0 }

/-- Concrete input for claim C1: two default-parameter circles at
`(800,250)` and `(800,370)`, both pinned, mouse last recorded at `(800,370)`. -/
def sC1 : SimState :=
  { baseState [⟨⟨800, 250⟩, ⟨0, 0⟩, 1/2⟩, ⟨⟨800, 370⟩, ⟨0, 0⟩, 1/2⟩] with
      stationaryPoints := {0, 1}, mousePos := ⟨800, 370⟩ }

/-- The state C1's counterexample observes: press on the pinned circle 1,
release slightly to the right, then run one frame tick. -/
def sC1' : SimState :=
  (frameTick (mouseup (mousedown sC1 ⟨800, 370⟩) ⟨810, 370⟩) 17).getD default

/-- Concrete mid-drag state (circle 1 held, mouse last seen at `(800, 370)`)
used by the C4 witness. -/
def sC4 : SimState :=
  { baseState (generatePoints ⟨800, 250⟩ 2) with
      dragging := true, currentDragging := 1, mousePos := ⟨800, 370⟩ }

/-- Concrete three-circle default state used by several witnesses. -/
def s3 : SimState := baseState (generatePoints ⟨800, 250⟩ 3)

/-- Concrete input for C7's counterexample: eight circles, circle 5 pinned,
circle 6 recorded as `currentDragging`. -/
def sC7 : SimState :=
  { baseState (generatePoints ⟨800, 250⟩ 8) with
      stationaryPoints := {0, 5}, currentDragging := 6 }

/-- Concrete input for C9's counterexample: five circles (the default count is
ten), circle 2 pinned and recorded as `currentDragging`. -/
def sC9 : SimState :=
  { baseState (generatePoints ⟨800, 250⟩ 5) with
      stationaryPoints := {0, 2}, currentDragging := 2 }

/-! ### Infrastructure lemmas -/

theorem buildFrom_zero (f : Nat → Option PhysicsCircle) (i : Nat) :
    buildFrom f i 0 = some [] := rfl

theorem buildFrom_succ (f : Nat → Option PhysicsCircle) (i n : Nat) :
    buildFrom f i (n+1) =
      match f i, buildFrom f (i+1) n with
      | some c, some l => some (c :: l)
      | _, _ => none := rfl

theorem buildFrom_length (f : Nat → Option PhysicsCircle) :
    ∀ (n i : Nat) (l : List PhysicsCircle), buildFrom f i n = some l → l.length = n := by
  intro n
  induction n with
  | zero =>
    intro i l h
    rw [buildFrom_zero] at h
    simp only [Option.some.injEq] at h
    simp [← h]
  | succ m ih =>
    intro i l h
    rw [buildFrom_succ] at h
    cases hf : f i with
    | none => rw [hf] at h; exact absurd h (by simp)
    | some c =>
      cases hb : buildFrom f (i+1) m with
      | none => rw [hf, hb] at h; exact absurd h (by simp)
      | some t =>
        rw [hf, hb] at h
        simp only [Option.some.injEq] at h
        subst h
        simp [ih (i+1) t hb]

theorem buildFrom_get (f : Nat → Option PhysicsCircle) :
    ∀ (n i : Nat) (l : List PhysicsCircle), buildFrom f i n = some l →
      ∀ j, j < n → f (i + j) = some (l.getD j default) := by
  intro n
  induction n with
  | zero => intro i l _ j hj; omega
  | succ m ih =>
    intro i l h j hj
    rw [buildFrom_succ] at h
    cases hf : f i with
    | none => rw [hf] at h; exact absurd h (by simp)
    | some c =>
      cases hb : buildFrom f (i+1) m with
      | none => rw [hf, hb] at h; exact absurd h (by simp)
      | some t =>
        rw [hf, hb] at h
        simp only [Option.some.injEq] at h
        subst h
        cases j with
        | zero => simpa using hf
        | succ k =>
          have hidx : i + (k+1) = (i+1) + k := by omega
          rw [hidx, List.getD_cons_succ]
          exact ih (i+1) t hb k (by omega)

theorem buildFrom_isSome (f : Nat → Option PhysicsCircle) :
    ∀ (n i : Nat), (∀ j, j < n → (f (i + j)).isSome) → (buildFrom f i n).isSome := by
  intro n
  induction n with
  | zero => intro i _; rw [buildFrom_zero]; simp
  | succ m ih =>
    intro i h
    have h0 : (f i).isSome := by simpa using h 0 (by omega)
    have ht : (buildFrom f (i+1) m).isSome := by
      refine ih (i+1) fun j hj => ?_
      have hidx : (i+1) + j = i + (j+1) := by omega
      rw [hidx]
      exact h (j+1) (by omega)
    rw [buildFrom_succ]
    cases hf : f i with
    | none => rw [hf] at h0; simp at h0
    | some c =>
      cases hb : buildFrom f (i+1) m with
      | none => rw [hb] at ht; simp at ht
      | some t => simp

theorem nodeAt_sub_one (cs : List PhysicsCircle) (i : Nat) (h1 : 1 ≤ i) (h2 : i ≤ cs.length) :
    nodeAt cs ((i : ℤ) - 1) = some (cs.getD (i - 1) default) := by
  unfold nodeAt
  have htn : ((i : ℤ) - 1).toNat = i - 1 := by omega
  have hc : (0 : ℤ) ≤ (i : ℤ) - 1 ∧ ((i : ℤ) - 1).toNat < cs.length := by
    refine ⟨by omega, ?_⟩
    rw [htn]
    omega
  rw [if_pos hc, htn]

theorem netForce_isSome (sc sl : ℚ) (cs : List PhysicsCircle) (i : Nat)
    (h1 : 1 ≤ i) (h2 : i ≤ cs.length) : (netForce sc sl cs i).isSome := by
  unfold netForce
  rw [nodeAt_sub_one cs i h1 h2]
  simp

theorem updateVelocity_skip (stat : Finset ℕ) (cd : Nat) (sc sl dx : ℚ)
    (cs : List PhysicsCircle) (i : Nat) (h : i ∈ stat ∨ i = cd) :
    updateVelocity stat cd sc sl dx cs i = some (cs.getD i default) := by
  unfold updateVelocity
  rw [if_pos h]

theorem updateVelocity_formula (stat : Finset ℕ) (cd : Nat) (sc sl dx : ℚ)
    (cs : List PhysicsCircle) (i : Nat) (f : Vec)
    (h : ¬(i ∈ stat ∨ i = cd)) (hf : netForce sc sl cs i = some f) :
    updateVelocity stat cd sc sl dx cs i =
      some { cs.getD i default with velocity :=
        ⟨((cs.getD i default).velocity.x + f.x / (cs.getD i default).mass / fps * dx) * friction,
         ((cs.getD i default).velocity.y + f.y / (cs.getD i default).mass / fps * dx) * friction⟩ } := by
  unfold updateVelocity
  rw [if_neg h, hf]

theorem updateVelocity_isSome (stat : Finset ℕ) (cd : Nat) (sc sl dx : ℚ)
    (cs : List PhysicsCircle) (i : Nat) (h0 : 0 ∈ stat) (hi : i < cs.length) :
    (updateVelocity stat cd sc sl dx cs i).isSome := by
  unfold updateVelocity
  by_cases h : i ∈ stat ∨ i = cd
  · rw [if_pos h]; simp
  · rw [if_neg h]
    have h1 : 1 ≤ i := by
      rcases Nat.eq_zero_or_pos i with h' | h'
      · subst h'; exact absurd (Or.inl h0) h
      · exact h'
    have := netForce_isSome sc sl cs i h1 (le_of_lt hi)
    cases hf : netForce sc sl cs i with
    | none => rw [hf] at this; simp at this
    | some f => simp

theorem updateVelocity_pos_mass (stat : Finset ℕ) (cd : Nat) (sc sl dx : ℚ)
    (cs : List PhysicsCircle) (i : Nat) (c : PhysicsCircle)
    (h : updateVelocity stat cd sc sl dx cs i = some c) :
    c.pos = (cs.getD i default).pos ∧ c.mass = (cs.getD i default).mass := by
  unfold updateVelocity at h
  by_cases hs : i ∈ stat ∨ i = cd
  · rw [if_pos hs] at h
    simp only [Option.some.injEq] at h
    subst h; exact ⟨rfl, rfl⟩
  · rw [if_neg hs] at h
    cases hf : netForce sc sl cs i with
    | none => rw [hf] at h; exact absurd h (by simp)
    | some f =>
      rw [hf] at h
      simp only [Option.some.injEq] at h
      subst h; exact ⟨rfl, rfl⟩

theorem accelerateCircles_some (s : SimState) (now : ℚ) (s' : SimState)
    (h : accelerateCircles s now = some s') :
    s'.springLength = s.springLength ∧ s'.springConstant = s.springConstant ∧
    s'.currentDragging = s.currentDragging ∧ s'.stationaryPoints = s.stationaryPoints ∧
    s'.numCircles = s.numCircles ∧ s'.dragging = s.dragging ∧ s'.mousePos = s.mousePos ∧
    s'.pressingShift = s.pressingShift ∧ s'.prev = now ∧
    s'.circles.length = s.circles.length ∧
    ∀ j, j < s.circles.length →
      updateVelocity s.stationaryPoints s.currentDragging s.springConstant s.springLength
        (clamp (now - s.prev) 0 17) s.circles j = some (s'.circles.getD j default) := by
  unfold accelerateCircles at h
  simp only [] at h
  cases hb : buildFrom
      (updateVelocity s.stationaryPoints s.currentDragging s.springConstant s.springLength
        (clamp (now - s.prev) 0 17) s.circles) 0 s.circles.length with
  | none => rw [hb] at h; exact absurd h (by simp)
  | some cs =>
    rw [hb] at h
    simp only [Option.some.injEq] at h
    subst h
    refine ⟨rfl, rfl, rfl, rfl, rfl, rfl, rfl, rfl, rfl,
      buildFrom_length _ _ _ _ hb, fun j hj => ?_⟩
    have := buildFrom_get _ _ _ _ hb j hj
    simpa using this

theorem accelerateCircles_isSome (s : SimState) (now : ℚ) (h0 : 0 ∈ s.stationaryPoints) :
    (accelerateCircles s now).isSome := by
  unfold accelerateCircles
  simp only []
  have := buildFrom_isSome
    (updateVelocity s.stationaryPoints s.currentDragging s.springConstant s.springLength
      (clamp (now - s.prev) 0 17) s.circles) s.circles.length 0
    (fun j hj => updateVelocity_isSome _ _ _ _ _ _ _ h0 (by simpa using hj))
  cases hb : buildFrom
      (updateVelocity s.stationaryPoints s.currentDragging s.springConstant s.springLength
        (clamp (now - s.prev) 0 17) s.circles) 0 s.circles.length with
  | none => rw [hb] at this; simp at this
  | some cs => simp

theorem moveCircles_length (cs : List PhysicsCircle) :
    (moveCircles cs).length = cs.length := by
  simp [moveCircles]

theorem moveCircles_getD (cs : List PhysicsCircle) (i : Nat) (hi : i < cs.length) :
    (moveCircles cs).getD i default =
      { cs.getD i default with pos :=
        ⟨(cs.getD i default).pos.x + (cs.getD i default).velocity.x,
         (cs.getD i default).pos.y + (cs.getD i default).velocity.y⟩ } := by
  unfold moveCircles
  rw [List.getD_eq_getElem?_getD, List.getElem?_map, List.getD_eq_getElem?_getD]
  cases hc : cs[i]? with
  | none => simp [List.getElem?_eq_none_iff] at hc; omega
  | some c => simp

theorem frameTick_eq (s : SimState) (now : ℚ) (s1 : SimState)
    (h : accelerateCircles s now = some s1) :
    frameTick s now = some { s1 with circles := moveCircles s1.circles } := by
  unfold frameTick
  rw [h]

theorem frameTick_some (s : SimState) (now : ℚ) (s' : SimState)
    (h : frameTick s now = some s') :
    ∃ s1, accelerateCircles s now = some s1 ∧
      s' = { s1 with circles := moveCircles s1.circles } := by
  unfold frameTick at h
  cases ha : accelerateCircles s now with
  | none => rw [ha] at h; exact absurd h (by simp)
  | some s1 =>
    rw [ha] at h
    simp only [Option.some.injEq] at h
    exact ⟨s1, rfl, h.symm⟩

theorem generatePoints_length (pos : Vec) (num : Nat) :
    (generatePoints pos num).length = num := by
  unfold generatePoints
  rw [List.length_map, List.length_range]

theorem generatePoints_getD (pos : Vec) (num i : Nat) (hi : i < num) :
    (generatePoints pos num).getD i default =
      { pos := ⟨pos.x, (i : ℚ) * circleGap + pos.y⟩, velocity := ⟨0, 0⟩,
        mass := circleMass } := by
  unfold generatePoints
  rw [List.getD_eq_getElem?_getD, List.getElem?_map, List.getElem?_range hi]
  simp

theorem setVelAt_length (cs : List PhysicsCircle) (i : Nat) (v : Vec) :
    (setVelAt cs i v).length = cs.length := by
  simp [setVelAt]

theorem setVelAt_getD_self (cs : List PhysicsCircle) (i : Nat) (v : Vec)
    (hi : i < cs.length) :
    (setVelAt cs i v).getD i default = { cs.getD i default with velocity := v } := by
  unfold setVelAt
  rw [List.getD_eq_getElem?_getD, List.getElem?_set_self (by simpa using hi)]
  simp

theorem setVelAt_getD_ne (cs : List PhysicsCircle) (i j : Nat) (v : Vec) (hij : i ≠ j) :
    (setVelAt cs i v).getD j default = cs.getD j default := by
  unfold setVelAt
  rw [List.getD_eq_getElem?_getD, List.getElem?_set_ne hij, ← List.getD_eq_getElem?_getD]

theorem growCircles_eq :
    ∀ (k : Nat) (cs : List PhysicsCircle), cs ≠ [] →
      growCircles cs k =
        cs ++ List.replicate k
          { pos := (cs.getD (cs.length - 1) default).pos, velocity := ⟨0, 0⟩,
            mass := circleMass } := by
  intro k
  induction k with
  | zero => intro cs _; simp [growCircles]
  | succ m ih =>
    intro cs hne
    unfold growCircles
    set a : PhysicsCircle :=
      { pos := (cs.getD (cs.length - 1) default).pos, velocity := ⟨0, 0⟩,
        mass := circleMass } with ha
    have hlast : ((cs ++ [a]).getD ((cs ++ [a]).length - 1) default) = a := by
      have hlen : (cs ++ [a]).length - 1 = cs.length := by simp
      rw [hlen, List.getD_eq_getElem?_getD, List.getElem?_concat_length]
      rfl
    rw [ih (cs ++ [a]) (by simp), hlast]
    rw [List.append_assoc, ← ha]
    rw [List.replicate_succ]
    rfl

theorem updateNumCircles_numCircles (s : SimState) (num : Nat) :
    (updateNumCircles s num).numCircles = num := by
  unfold updateNumCircles
  split_ifs with h1 h2
  · rfl
  · rfl
  · omega

theorem updateNumCircles_fields (s : SimState) (num : Nat) :
    (updateNumCircles s num).stationaryPoints = s.stationaryPoints ∧
    (updateNumCircles s num).currentDragging = s.currentDragging ∧
    (updateNumCircles s num).dragging = s.dragging ∧
    (updateNumCircles s num).springConstant = s.springConstant ∧
    (updateNumCircles s num).springLength = s.springLength := by
  unfold updateNumCircles
  split_ifs <;> exact ⟨rfl, rfl, rfl, rfl, rfl⟩

theorem updateNumCircles_circles_grow (s : SimState) (num : Nat) (h : s.numCircles < num) :
    (updateNumCircles s num).circles = growCircles s.circles (num - s.numCircles) := by
  unfold updateNumCircles
  rw [if_pos h]

theorem updateNumCircles_circles_shrink (s : SimState) (num : Nat) (h : num < s.numCircles) :
    (updateNumCircles s num).circles = s.circles.take num := by
  unfold updateNumCircles
  rw [if_neg (by omega), if_pos h]

theorem updateNumCircles_self (s : SimState) (num : Nat) (h : num = s.numCircles) :
    updateNumCircles s num = s := by
  unfold updateNumCircles
  rw [if_neg (by omega), if_neg (by omega)]

/-! ### Claim theorems -/

/-- C3: feeding an elapsed wall-clock time of 10000 ms into one integration
step (`accelerateCircles` at `now = prev + 10000`) produces exactly the same
circle list — hence the same velocity change for every node — as feeding an
elapsed time of 17 ms, the clamp ceiling; and the clamp's output range is
`[0, 17]`. -/
theorem C3_dt_clamp (s : SimState) :
    (accelerateCircles s (s.prev + 10000)).map SimState.circles =
      (accelerateCircles s (s.prev + 17)).map SimState.circles ∧
    ∀ v : ℚ, 0 ≤ clamp v 0 17 ∧ clamp v 0 17 ≤ 17 := by
  constructor
  · have e1 : clamp (s.prev + 10000 - s.prev) 0 17 = clamp (s.prev + 17 - s.prev) 0 17 := by
      have h1 : s.prev + 10000 - s.prev = (10000 : ℚ) := by ring
      have h2 : s.prev + 17 - s.prev = (17 : ℚ) := by ring
      rw [h1, h2]
      norm_num [clamp]
    unfold accelerateCircles
    simp only []
    rw [e1]
    cases hb : buildFrom
        (updateVelocity s.stationaryPoints s.currentDragging s.springConstant s.springLength
          (clamp (s.prev + 17 - s.prev) 0 17) s.circles) 0 s.circles.length <;>
      simp
  · intro v
    exact ⟨le_max_right _ _, max_le (min_le_right _ _) (by norm_num)⟩

/-- C4: on `mouseup` while dragging, with `Δ = p - mousePos` the pointer's
displacement since the last recorded pointer position, the released circle's
velocity is set to exactly `2 * Δ` (its position untouched), every other
circle is untouched, `currentDragging` is cleared to 0 and `dragging` returns
to `false`. -/
theorem C4_flick_impulse (s : SimState) (p : Vec)
    (hd : s.dragging = true) (hcd : s.currentDragging < s.circles.length) :
    (mouseup s p).dragging = false ∧
    (mouseup s p).currentDragging = 0 ∧
    ((mouseup s p).circles.getD s.currentDragging default).velocity =
      ⟨2 * (p.x - s.mousePos.x), 2 * (p.y - s.mousePos.y)⟩ ∧
    ((mouseup s p).circles.getD s.currentDragging default).pos =
      (s.circles.getD s.currentDragging default).pos ∧
    (∀ j, j ≠ s.currentDragging →
      (mouseup s p).circles.getD j default = s.circles.getD j default) ∧
    (mouseup s p).stationaryPoints = s.stationaryPoints ∧
    (mouseup s p).mousePos = s.mousePos := by
  have hU : mouseup s p =
      { s with dragging := false,
               circles := setVelAt s.circles s.currentDragging
                 ⟨2 * (p.x - s.mousePos.x), 2 * (p.y - s.mousePos.y)⟩,
               currentDragging := 0 } := by
    simp only [mouseup, hd, if_true]
  rw [hU]
  refine ⟨rfl, rfl, ?_, ?_, ?_, rfl, rfl⟩
  · rw [setVelAt_getD_self _ _ _ hcd]
  · rw [setVelAt_getD_self _ _ _ hcd]
  · intro j hj
    exact setVelAt_getD_ne _ _ _ _ fun e => hj e.symm

/-- Witness for C4 at the concrete mid-drag state `sC4` and release point
`(810, 375)`: hypotheses hold and the released circle 1 gets velocity
`2 * (10, 5) = (20, 10)`. -/
theorem C4_flick_impulse_witness :
    (sC4.dragging = true ∧ sC4.currentDragging < sC4.circles.length) ∧
    ((mouseup sC4 ⟨810, 375⟩).circles.getD sC4.currentDragging default).velocity =
      ⟨2 * ((810 : ℚ) - sC4.mousePos.x), 2 * ((375 : ℚ) - sC4.mousePos.y)⟩ :=
  ⟨⟨rfl, by norm_num [sC4, baseState, generatePoints_length]⟩,
    (C4_flick_impulse sC4 ⟨810, 375⟩ rfl
      (by norm_num [sC4, baseState, generatePoints_length])).2.2.1⟩

theorem eq_some_getD {α : Type} (o : Option α) (d : α) (h : o.isSome) :
    o = some (o.getD d) := by
  cases o with
  | none => simp at h
  | some a => rfl

/-- C5: for a node that is neither pinned nor the dragged index, one
integration step updates its velocity componentwise as
`v_new = (v_old + a * dt) * friction` with `a = F / mass / fps`,
`fps` the fixed constant 60, and `dt` the clamped wall-clock delta. -/
theorem C5_velocity_update (s : SimState) (now : ℚ) (s' : SimState) (i : Nat) (f : Vec)
    (h : accelerateCircles s now = some s') (hi : i < s.circles.length)
    (hskip : ¬(i ∈ s.stationaryPoints ∨ i = s.currentDragging))
    (hf : netForce s.springConstant s.springLength s.circles i = some f) :
    fps = 60 ∧
    (s'.circles.getD i default).velocity =
      ⟨((s.circles.getD i default).velocity.x +
          f.x / (s.circles.getD i default).mass / fps * clamp (now - s.prev) 0 17) * friction,
       ((s.circles.getD i default).velocity.y +
          f.y / (s.circles.getD i default).mass / fps * clamp (now - s.prev) 0 17) * friction⟩ := by
  obtain ⟨-, -, -, -, -, -, -, -, -, -, hupd⟩ := accelerateCircles_some s now s' h
  have hui := hupd i hi
  rw [updateVelocity_formula _ _ _ _ _ _ _ _ hskip hf] at hui
  have hrec := Option.some.inj hui
  refine ⟨rfl, ?_⟩
  rw [← hrec]

/-- Witness for C5: in the default three-circle state `s3` at `now = 17`,
circle 1 is integrated with the net force `(0, 49/10)` computed by the code. -/
theorem C5_velocity_update_witness :
    (1 < s3.circles.length ∧
     ¬((1 : ℕ) ∈ s3.stationaryPoints ∨ (1 : ℕ) = s3.currentDragging) ∧
     netForce s3.springConstant s3.springLength s3.circles 1 = some ⟨0, 49/10⟩) ∧
    (fps = 60 ∧
     (((accelerateCircles s3 17).getD default).circles.getD 1 default).velocity =
       ⟨((s3.circles.getD 1 default).velocity.x +
           (⟨0, 49/10⟩ : Vec).x / (s3.circles.getD 1 default).mass / fps *
             clamp (17 - s3.prev) 0 17) * friction,
        ((s3.circles.getD 1 default).velocity.y +
           (⟨0, 49/10⟩ : Vec).y / (s3.circles.getD 1 default).mass / fps *
             clamp (17 - s3.prev) 0 17) * friction⟩) :=
  ⟨⟨by norm_num [s3, baseState, generatePoints_length],
    by norm_num [s3, baseState],
    by norm_num [s3, baseState, netForce, nodeAt, generatePoints, List.range_succ,
      springForceCircles, forceDampen, circleMass, circleGap, g]⟩,
   C5_velocity_update s3 17 ((accelerateCircles s3 17).getD default) 1 ⟨0, 49/10⟩
     (eq_some_getD _ default (accelerateCircles_isSome s3 17 (by norm_num [s3, baseState])))
     (by norm_num [s3, baseState, generatePoints_length])
     (by norm_num [s3, baseState])
     (by norm_num [s3, baseState, netForce, nodeAt, generatePoints, List.range_succ,
       springForceCircles, forceDampen, circleMass, circleGap, g])⟩

/-- C6: within one frame tick all velocity computation
(`accelerateCircles`) leaves every position (and mass) unchanged — it works
on the single start-of-frame snapshot of positions — and only afterwards is
every node's position updated exactly once by `pos_new = pos_old + v_new`. -/
theorem C6_frame_snapshot (s : SimState) (now : ℚ) (s1 : SimState)
    (h : accelerateCircles s now = some s1) :
    s1.circles.length = s.circles.length ∧
    (∀ i, i < s.circles.length →
      (s1.circles.getD i default).pos = (s.circles.getD i default).pos) ∧
    frameTick s now = some { s1 with circles := moveCircles s1.circles } ∧
    ∀ i, i < s.circles.length →
      (moveCircles s1.circles).getD i default =
        { s1.circles.getD i default with pos :=
          ⟨(s.circles.getD i default).pos.x + (s1.circles.getD i default).velocity.x,
           (s.circles.getD i default).pos.y + (s1.circles.getD i default).velocity.y⟩ } := by
  obtain ⟨-, -, -, -, -, -, -, -, -, hlen, hupd⟩ := accelerateCircles_some s now s1 h
  have hpos : ∀ i, i < s.circles.length →
      (s1.circles.getD i default).pos = (s.circles.getD i default).pos := by
    intro i hi
    exact (updateVelocity_pos_mass _ _ _ _ _ _ _ _ (hupd i hi)).1
  refine ⟨hlen, hpos, frameTick_eq s now s1 h, fun i hi => ?_⟩
  rw [moveCircles_getD s1.circles i (by omega), hpos i hi]

/-- Witness for C6 at the three-circle default state `s3` and `now = 17`. -/
theorem C6_frame_snapshot_witness :
    accelerateCircles s3 17 = some ((accelerateCircles s3 17).getD default) ∧
    frameTick s3 17 =
      some { (accelerateCircles s3 17).getD default with
               circles := moveCircles ((accelerateCircles s3 17).getD default).circles } :=
  have ha : accelerateCircles s3 17 = some ((accelerateCircles s3 17).getD default) :=
    eq_some_getD _ default (accelerateCircles_isSome s3 17 (by norm_num [s3, baseState]))
  ⟨ha, (C6_frame_snapshot s3 17 ((accelerateCircles s3 17).getD default) ha).2.2.1⟩

/-- Counterexample to C1 as stated: in `sC1` circle 1 is pinned with zero
velocity, yet after the pointer events mousedown at `(800, 370)` (which picks
the pinned circle 1 for dragging) and mouseup at `(810, 370)`, one frame tick
later circle 1 is still pinned but has velocity `(20, 0) ≠ (0, 0)` and has
moved from `(800, 370)` to `(820, 370)` — the pin invariant does not survive
arbitrary pointer events. -/
theorem C1_pin_invariant_counterexample :
    1 ∈ sC1.stationaryPoints ∧
    (sC1.circles.getD 1 default).velocity = ⟨0, 0⟩ ∧
    (sC1.circles.getD 1 default).pos = ⟨800, 370⟩ ∧
    (frameTick (mouseup (mousedown sC1 ⟨800, 370⟩) ⟨810, 370⟩) 17).isSome ∧
    1 ∈ sC1'.stationaryPoints ∧
    (sC1'.circles.getD 1 default).velocity = ⟨20, 0⟩ ∧
    ¬(sC1'.circles.getD 1 default).velocity = ⟨0, 0⟩ ∧
    (sC1'.circles.getD 1 default).pos = ⟨820, 370⟩ ∧
    ¬(sC1'.circles.getD 1 default).pos = (sC1.circles.getD 1 default).pos := by
  norm_num [sC1', sC1, baseState, frameTick, accelerateCircles, mousedown, mouseup,
    getClosestPointIndex, dist2, setVelAt, updateVelocity, netForce, nodeAt, buildFrom,
    clamp, moveCircles, List.range_succ]

/-- C1 amended: the pin invariant holds across frame ticks — a frame tick
never changes a pinned circle's velocity, and a pinned circle whose velocity
is `(0, 0)` does not move — but pointer events are not covered, since a
pinned circle can be picked up by a plain mousedown/drag/mouseup. -/
theorem C1_pin_invariant_frame_ticks (s : SimState) (now : ℚ) (s' : SimState) (i : Nat)
    (h : frameTick s now = some s') (hi : i ∈ s.stationaryPoints)
    (hlen : i < s.circles.length) :
    s'.stationaryPoints = s.stationaryPoints ∧
    (s'.circles.getD i default).velocity = (s.circles.getD i default).velocity ∧
    ((s.circles.getD i default).velocity = ⟨0, 0⟩ →
      (s'.circles.getD i default).pos = (s.circles.getD i default).pos) := by
  obtain ⟨s1, ha, rfl⟩ := frameTick_some s now s' h
  obtain ⟨-, -, -, hstat, -, -, -, -, -, hlen1, hupd⟩ := accelerateCircles_some s now s1 ha
  have hui := hupd i hlen
  rw [updateVelocity_skip _ _ _ _ _ _ _ (Or.inl hi)] at hui
  have hceq : s.circles.getD i default = s1.circles.getD i default := Option.some.inj hui
  have hmv := moveCircles_getD s1.circles i (by omega)
  refine ⟨hstat, ?_, ?_⟩
  · show ((moveCircles s1.circles).getD i default).velocity = _
    rw [hmv, ← hceq]
  · intro hv
    show ((moveCircles s1.circles).getD i default).pos = _
    rw [hmv, ← hceq, hv]
    simp

/-- Witness for the amended C1 at the three-circle default state `s3` (circle
0 pinned with zero velocity) and `now = 17`. -/
theorem C1_pin_invariant_frame_ticks_witness :
    (frameTick s3 17 = some ((frameTick s3 17).getD default) ∧
     0 ∈ s3.stationaryPoints ∧ 0 < s3.circles.length ∧
     (s3.circles.getD 0 default).velocity = ⟨0, 0⟩) ∧
    (((frameTick s3 17).getD default).circles.getD 0 default).velocity =
      (s3.circles.getD 0 default).velocity ∧
    (((frameTick s3 17).getD default).circles.getD 0 default).pos =
      (s3.circles.getD 0 default).pos :=
  have h0 : (0 : ℕ) ∈ s3.stationaryPoints := by norm_num [s3, baseState]
  have hsome : (frameTick s3 17).isSome := by
    have := accelerateCircles_isSome s3 17 h0
    cases ha : accelerateCircles s3 17 with
    | none => rw [ha] at this; simp at this
    | some s1 => rw [frameTick_eq s3 17 s1 ha]; simp
  have hft : frameTick s3 17 = some ((frameTick s3 17).getD default) :=
    eq_some_getD _ default hsome
  have hv0 : (s3.circles.getD 0 default).velocity = ⟨0, 0⟩ := by
    norm_num [s3, baseState, generatePoints, List.range_succ]
  have hmain := C1_pin_invariant_frame_ticks s3 17 ((frameTick s3 17).getD default) 0 hft h0
    (by norm_num [s3, baseState, generatePoints_length])
  ⟨⟨hft, h0, by norm_num [s3, baseState, generatePoints_length], hv0⟩,
    hmain.2.1, hmain.2.2 hv0⟩

/-- Counterexample to C2 as stated: on three default circles stacked 120
apart, the code's per-node force for node 1 (`netForce`, variant 1) is
`(0, 49/10)` — the full weight `mass * g = 49/10` added after the division —
while the claim's formula (`claimNetForce`, weight added before the division
by `forceDampen`) yields `(0, 49/120)`; they differ. -/
theorem C2_weight_placement_counterexample :
    netForce 4 80 (generatePoints ⟨800, 250⟩ 3) 1 = some ⟨0, 49/10⟩ ∧
    claimNetForce 4 80 (generatePoints ⟨800, 250⟩ 3) 1 = some ⟨0, 49/120⟩ ∧
    ¬netForce 4 80 (generatePoints ⟨800, 250⟩ 3) 1 =
      claimNetForce 4 80 (generatePoints ⟨800, 250⟩ 3) 1 := by
  norm_num [netForce, claimNetForce, nodeAt, generatePoints, List.range_succ,
    springForceCircles, forceDampen, circleMass, circleGap, g]

/-- C2 amended: in variant 1 the net force is
`(Fbelow - Fabove) / forceDampen` with the weight `mass * g` then added once,
undivided, to the y-component; variant 3 (`getForceBelow`) instead adds the
weight once to the "below" contribution before the division, which is exactly
the placement the claim describes (`claimNetForce`). -/
theorem C2_weight_placement (sc sl : ℚ) (cs : List PhysicsCircle) (i : Nat)
    (h1 : 1 ≤ i) (h2 : i < cs.length) :
    netForce sc sl cs i = some
      ⟨((forceBelowAt sc sl cs i).x - (forceAboveAt sc sl cs i).x) / forceDampen,
       ((forceBelowAt sc sl cs i).y - (forceAboveAt sc sl cs i).y) / forceDampen +
         (cs.getD i default).mass * g⟩ ∧
    V3.netForce sc sl g cs i = claimNetForce sc sl cs i ∧
    claimNetForce sc sl cs i = some
      ⟨((forceBelowAt sc sl cs i).x - (forceAboveAt sc sl cs i).x) / forceDampen,
       ((forceBelowAt sc sl cs i).y - (forceAboveAt sc sl cs i).y +
         (cs.getD i default).mass * g) / forceDampen⟩ := by
  have hna := nodeAt_sub_one cs i h1 (le_of_lt h2)
  refine ⟨?_, ?_, ?_⟩
  · unfold netForce forceBelowAt forceAboveAt
    rw [hna]
  · unfold V3.netForce V3.getForceAbove V3.getForceBelow claimNetForce
    rw [hna]
    simp only [Option.map_some']
    by_cases hb : i < cs.length - 1
    · rw [if_pos hb, if_pos hb]
      simp only [Option.some.injEq, Vec.mk.injEq]
      constructor <;> ring_nf
    · rw [if_neg hb, if_neg hb]
      simp only [Option.some.injEq, Vec.mk.injEq]
      constructor <;> ring_nf
  · unfold claimNetForce forceBelowAt forceAboveAt
    rw [hna]

/-- Witness for the amended C2 at the concrete three-circle chain, node 1:
both characterizations hold with the default parameters. -/
theorem C2_weight_placement_witness :
    ((1 : ℕ) ≤ 1 ∧ 1 < (generatePoints ⟨800, 250⟩ 3).length) ∧
    netForce 4 80 (generatePoints ⟨800, 250⟩ 3) 1 = some
      ⟨((forceBelowAt 4 80 (generatePoints ⟨800, 250⟩ 3) 1).x -
          (forceAboveAt 4 80 (generatePoints ⟨800, 250⟩ 3) 1).x) / forceDampen,
       ((forceBelowAt 4 80 (generatePoints ⟨800, 250⟩ 3) 1).y -
          (forceAboveAt 4 80 (generatePoints ⟨800, 250⟩ 3) 1).y) / forceDampen +
         ((generatePoints ⟨800, 250⟩ 3).getD 1 default).mass * g⟩ ∧
    V3.netForce 4 80 g (generatePoints ⟨800, 250⟩ 3) 1 =
      claimNetForce 4 80 (generatePoints ⟨800, 250⟩ 3) 1 :=
  have hlen : 1 < (generatePoints ⟨800, 250⟩ 3).length := by
    norm_num [generatePoints_length]
  have hmain := C2_weight_placement 4 80 (generatePoints ⟨800, 250⟩ 3) 1 le_rfl hlen
  ⟨⟨le_rfl, hlen⟩, hmain.1, hmain.2.1⟩

/-- Counterexample to C7 as stated: `sC7` has eight circles with circle 5
pinned and `currentDragging = 6`; after `updateNumCircles` to three circles,
the stale index 5 is still in `stationaryPoints` and the dragged index is
still 6, both `≥ 3` — resize drops or invalidates nothing. -/
theorem C7_resize_counterexample :
    sC7.numCircles = 8 ∧ (5 : ℕ) ∈ sC7.stationaryPoints ∧ sC7.currentDragging = 6 ∧
    (updateNumCircles sC7 3).circles.length = 3 ∧
    (updateNumCircles sC7 3).numCircles = 3 ∧
    (5 : ℕ) ∈ (updateNumCircles sC7 3).stationaryPoints ∧
    (updateNumCircles sC7 3).currentDragging = 6 ∧
    ¬(5 : ℕ) < 3 ∧ ¬(6 : ℕ) < 3 := by
  norm_num [sC7, baseState, updateNumCircles, generatePoints_length]

/-- C7 amended: `updateNumCircles` leaves `stationaryPoints` and
`currentDragging` entirely unchanged (stale indices beyond the new length
persist), but the integrator only iterates over indices below the current
chain length, so on the resized state it still never reads a node that no
longer exists: with node 0 pinned it succeeds and returns a chain of the same
length. -/
theorem C7_resize_no_invalidate (s : SimState) (num : Nat) (now : ℚ)
    (h0 : 0 ∈ s.stationaryPoints) :
    (updateNumCircles s num).stationaryPoints = s.stationaryPoints ∧
    (updateNumCircles s num).currentDragging = s.currentDragging ∧
    (accelerateCircles (updateNumCircles s num) now).isSome ∧
    ∀ s', accelerateCircles (updateNumCircles s num) now = some s' →
      s'.circles.length = (updateNumCircles s num).circles.length := by
  obtain ⟨hstat, hcd, -, -, -⟩ := updateNumCircles_fields s num
  refine ⟨hstat, hcd, accelerateCircles_isSome _ now (by rw [hstat]; exact h0),
    fun s' h => ?_⟩
  obtain ⟨-, -, -, -, -, -, -, -, -, hlen, -⟩ := accelerateCircles_some _ now s' h
  exact hlen

/-- Witness for the amended C7: shrinking `sC7` to three circles keeps its
pinned set (still containing the stale index 5) and the integrator still
succeeds on the shrunken chain. -/
theorem C7_resize_no_invalidate_witness :
    (0 : ℕ) ∈ sC7.stationaryPoints ∧
    (updateNumCircles sC7 3).stationaryPoints = sC7.stationaryPoints ∧
    (accelerateCircles (updateNumCircles sC7 3) 17).isSome :=
  have h0 : (0 : ℕ) ∈ sC7.stationaryPoints := by norm_num [sC7, baseState]
  have hm := C7_resize_no_invalidate sC7 3 17 h0
  ⟨h0, hm.1, hm.2.2.1⟩

/-- C8: resize is idempotent (`Resize(n)` twice equals `Resize(n)` once, as
full states); `Resize(n+1)` then `Resize(n)` leaves exactly the original
first `n` circles; and a growing resize appends clones: copies of the current
last circle's position with zero velocity and the default mass. -/
theorem C8_resize_roundtrip (s : SimState) (n num : Nat)
    (hn1 : 1 ≤ n) (hn2 : n ≤ s.circles.length) (hgrow : s.numCircles < num) :
    updateNumCircles (updateNumCircles s n) n = updateNumCircles s n ∧
    (updateNumCircles (updateNumCircles s (n+1)) n).circles = s.circles.take n ∧
    (updateNumCircles s num).circles =
      s.circles ++ List.replicate (num - s.numCircles)
        { pos := (s.circles.getD (s.circles.length - 1) default).pos,
          velocity := ⟨0, 0⟩, mass := circleMass } := by
  have hne : s.circles ≠ [] := by
    intro he
    rw [he] at hn2
    simp at hn2
    omega
  refine ⟨?_, ?_, ?_⟩
  · exact updateNumCircles_self _ n (updateNumCircles_numCircles s n).symm
  · have hs1n : (updateNumCircles s (n+1)).numCircles = n + 1 :=
      updateNumCircles_numCircles s (n+1)
    have hshr : (updateNumCircles (updateNumCircles s (n+1)) n).circles =
        (updateNumCircles s (n+1)).circles.take n :=
      updateNumCircles_circles_shrink _ n (by omega)
    rw [hshr]
    rcases lt_trichotomy s.numCircles (n+1) with hc | hc | hc
    · rw [updateNumCircles_circles_grow s (n+1) hc, growCircles_eq _ s.circles hne,
        List.take_append_of_le_length hn2]
    · rw [updateNumCircles_self s (n+1) hc.symm]
    · rw [updateNumCircles_circles_shrink s (n+1) hc, List.take_take,
        min_eq_left (by omega)]
  · rw [updateNumCircles_circles_grow s num hgrow, growCircles_eq _ s.circles hne]

/-- Witness for C8 at the three-circle default state `s3`, `n = 2`,
`num = 5`: hypotheses hold, the double resize equals the single one, and
`Resize(3) ∘ Resize(2)`... i.e. grow-then-shrink restores the first two
circles. -/
theorem C8_resize_roundtrip_witness :
    ((1 : ℕ) ≤ 2 ∧ 2 ≤ s3.circles.length ∧ s3.numCircles < 5) ∧
    updateNumCircles (updateNumCircles s3 2) 2 = updateNumCircles s3 2 ∧
    (updateNumCircles (updateNumCircles s3 3) 2).circles = s3.circles.take 2 :=
  have hlen : (2 : ℕ) ≤ s3.circles.length := by norm_num [s3, baseState, generatePoints_length]
  have hgrow : s3.numCircles < 5 := by norm_num [s3, baseState, generatePoints_length]
  have hm := C8_resize_roundtrip s3 2 5 (by norm_num) hlen hgrow
  ⟨⟨by norm_num, hlen, hgrow⟩, hm.1, hm.2.1⟩

/-- Counterexample to C9 as stated: `sC9` has five circles (the default
count is ten) and `currentDragging = 2` outside a drag; `resetCircles`
rebuilds the chain with the *current* count 5 and leaves the dragged index at
2 — neither the default count is restored nor the dragged index cleared. -/
theorem C9_reset_counterexample :
    sC9.currentDragging = 2 ∧ sC9.dragging = false ∧ sC9.numCircles = 5 ∧
    (resetCircles sC9).currentDragging = 2 ∧
    ¬(resetCircles sC9).currentDragging = 0 ∧
    (resetCircles sC9).circles.length = 5 ∧
    ¬(resetCircles sC9).circles.length = defaultNumCircles := by
  norm_num [sC9, baseState, resetCircles, generatePoints_length, defaultNumCircles]

/-- C9 amended: after `resetCircles` the chain is rebuilt from the default
origin `(800, 250)` and default mass with the *current* node count — all
nodes at their initial stacked positions with zero velocity — and the pinned
set equals `{0}`; the dragged index (and the dragging flag) are left
unchanged, not cleared. -/
theorem C9_reset_postcondition (s : SimState) :
    (resetCircles s).stationaryPoints = {0} ∧
    (resetCircles s).circles.length = s.numCircles ∧
    (∀ i, i < s.numCircles →
      (resetCircles s).circles.getD i default =
        { pos := ⟨800, (i : ℚ) * circleGap + 250⟩, velocity := ⟨0, 0⟩,
          mass := circleMass }) ∧
    (resetCircles s).currentDragging = s.currentDragging ∧
    (resetCircles s).dragging = s.dragging ∧
    (resetCircles s).numCircles = s.numCircles := by
  refine ⟨rfl, generatePoints_length _ _, fun i hi => ?_, rfl, rfl, rfl⟩
  exact generatePoints_getD ⟨800, 250⟩ s.numCircles i hi

/-- Witness for the amended C9 at `sC9`, circle 1. -/
theorem C9_reset_postcondition_witness :
    1 < sC9.numCircles ∧
    (resetCircles sC9).stationaryPoints = {0} ∧
    (resetCircles sC9).circles.getD 1 default =
      { pos := ⟨800, (1 : ℚ) * circleGap + 250⟩, velocity := ⟨0, 0⟩,
        mass := circleMass } :=
  have h1 : 1 < sC9.numCircles := by norm_num [sC9, baseState, generatePoints_length]
  have hm := C9_reset_postcondition sC9
  ⟨h1, hm.1, hm.2.2.1 1 h1⟩

/-- C10: every pointer-event handler and every frame tick preserves the
invariant `DragIdx` — outside an active drag, `currentDragging` is 0 or a
pinned index; in particular `mouseup` while dragging resets it to 0, a
shift-click on a pinned pick resets it to 0, and under the invariant the
integrator's skip of `currentDragging` never exempts an unpinned, non-anchor
node outside an active drag. -/
theorem C10_dragging_invariant (s : SimState) (p q r : Vec) (now : ℚ) (h : DragIdx s) :
    DragIdx (mousedown s p) ∧ DragIdx (mouseup s q) ∧ DragIdx (mousemove s r) ∧
    (∀ s', frameTick s now = some s' → DragIdx s') ∧
    (s.dragging = true → (mouseup s q).currentDragging = 0) ∧
    (s.pressingShift = true → getClosestPointIndex s.circles p ∈ s.stationaryPoints →
      (mousedown s p).currentDragging = 0) ∧
    (s.dragging = false → ∀ i, i ∉ s.stationaryPoints → i ≠ 0 →
      i ≠ s.currentDragging) := by
  refine ⟨?_, ?_, ?_, ?_, ?_, ?_, ?_⟩
  · unfold mousedown DragIdx
    simp only []
    split_ifs with hps h0 hmem
    · intro _; exact Or.inl h0
    · intro _; exact Or.inl rfl
    · intro _; exact Or.inr (Finset.mem_insert_self _ _)
    · intro hd; simp at hd
  · unfold mouseup DragIdx
    split_ifs with hd
    · intro _; exact Or.inl rfl
    · exact h
  · unfold mousemove DragIdx
    split_ifs with hd
    · exact h
    · exact h
  · intro s' hft
    obtain ⟨s1, ha, rfl⟩ := frameTick_some s now s' hft
    obtain ⟨-, -, hcd, hstat, -, hdrag, -, -, -, -, -⟩ := accelerateCircles_some s now s1 ha
    intro hd
    have hd' : s.dragging = false := by rw [← hdrag]; exact hd
    rcases h hd' with h1 | h1
    · exact Or.inl (hcd.trans h1)
    · refine Or.inr ?_
      show s1.currentDragging ∈ s1.stationaryPoints
      rw [hcd, hstat]
      exact h1
  · intro hd
    have hU : mouseup s q =
        { s with dragging := false,
                 circles := setVelAt s.circles s.currentDragging
                   ⟨2 * (q.x - s.mousePos.x), 2 * (q.y - s.mousePos.y)⟩,
                 currentDragging := 0 } := by
      simp only [mouseup, hd, if_true]
    rw [hU]
  · intro hps hmem
    unfold mousedown
    simp only [hps, if_true]
    by_cases h0 : getClosestPointIndex s.circles p = 0
    · rw [if_pos h0]
      exact h0
    · rw [if_neg h0, if_pos hmem]
  · intro hd i hin h0i hie
    rcases h hd with h1 | h1
    · exact h0i (hie.trans h1)
    · exact hin (by rw [hie]; exact h1)

/-- Witness for C10 at the three-circle default state `s3` (not dragging,
`currentDragging = 0`): the invariant holds and is preserved by a mousedown
at `(800, 490)` and a mouseup. -/
theorem C10_dragging_invariant_witness :
    DragIdx s3 ∧ DragIdx (mousedown s3 ⟨800, 490⟩) ∧ DragIdx (mouseup s3 ⟨0, 0⟩) :=
  have h : DragIdx s3 := fun _ => Or.inl rfl
  have hm := C10_dragging_invariant s3 ⟨800, 490⟩ ⟨0, 0⟩ ⟨0, 0⟩ 17 h
  ⟨h, hm.1, hm.2.1⟩

end SpringSim
